import Mathlib

namespace InworldSpec

/-- Model of the Python values that appear in Home Assistant form submissions
and config entries (strings, ints, floats, booleans, None). Floats are
modelled as rationals; the code never computes with them, it only passes
them through. -/
inductive PyVal where
  | str (s : String)
  | int (n : Int)
  | float (q : Rat)
  | bool (b : Bool)
  | pynone
  deriving DecidableEq, Repr

/-- Model of Python values produced by json.loads: JSON null, booleans,
numbers, strings, arrays and objects (dicts with string keys, unique after
decoding). -/
inductive Json where
  | null
  | bool (b : Bool)
  | num (q : Rat)
  | str (s : String)
  | arr (elems : List Json)
  | obj (fields : List (String × Json))

/-- First-match lookup in an association list, modelling Python dict access
for dicts with string keys. -/
def pyLookup (d : List (String × PyVal)) (k : String) : Option PyVal :=
  (d.find? (fun p => p.1 == k)).map (fun p => p.2)

/-- First-match lookup among the fields of a decoded JSON object. -/
def jsonLookup (fields : List (String × Json)) (k : String) : Option Json :=
  (fields.find? (fun p => p.1 == k)).map (fun p => p.2)

/-- Substring test on character lists, modelling Python `needle in haystack`
for strings. -/
def listSub (n : List Char) : List Char → Bool
  | [] => n.isEmpty
  | c :: rest => n.isPrefixOf (c :: rest) || listSub n rest

/-- Whether a line is blank after stripping, modelling the falsiness of
Python `line.strip()`: every character is whitespace. -/
def isBlank (s : String) : Bool :=
  s.toList.all Char.isWhitespace

/-- ASCII uppercasing, modelling Python `str.upper()` on the ASCII encoding
names it is applied to. -/
def pyUpper (s : String) : String :=
  ⟨s.toList.map Char.toUpper⟩

/-- Python truthiness of a modelled value. -/
def pyTruthy : PyVal → Bool
  | .str s => !(s == "")
  | .int n => !(n == 0)
  | .float q => !(q == 0)
  | .bool b => b
  | .pynone => false

/-- Model of the exceptions raised across the integration. `apiError` carries
the message value extracted from an error chunk (the Python exception is an
`Exception` whose text is "API error: " followed by that value). -/
inductive PyErr where
  | invalidAuth
  | cannotConnect
  | keyError (k : String)
  | valueError (k : String)
  | typeError
  | attributeError
  | binasciiError
  | apiError (msg : Json)
  | languageNotSupported (lang : String)
  | configurationError (k : String)
  | invalidApiKey
  | rateLimitError
  | httpError (status : Nat)
  | unexpectedTts

/-- Python `key in value` for a decoded JSON value: key membership for dicts,
element equality for lists (a list element equals the string key only when it
is that string), substring test for strings, TypeError otherwise. -/
def pyIn (k : String) : Json → Except PyErr Bool
  | .obj fields => .ok ((jsonLookup fields k).isSome)
  | .arr elems => .ok (elems.any (fun j => match j with | .str s => s == k | _ => false))
  | .str s => .ok (listSub k.toList s.toList)
  | _ => .error .typeError

/-- Python `value[key]` subscription with a string key: dict lookup
(KeyError when absent), TypeError for every non-dict value. -/
def pyGetItem (j : Json) (k : String) : Except PyErr Json :=
  match j with
  | .obj fields =>
    match jsonLookup fields k with
    | some v => .ok v
    | none => .error (.keyError k)
  | _ => .error .typeError

/-- Python `value.get(key, default)`: dict lookup with a default,
AttributeError for every non-dict value. -/
def pyDictGet (j : Json) (k : String) (dflt : Json) : Except PyErr Json :=
  match j with
  | .obj fields => .ok ((jsonLookup fields k).getD dflt)
  | _ => .error .attributeError

/-- Processing of one decoded stream chunk, following the loop body of
`InworldTTSEntity._make_streaming_request` (tts.py lines 277-307): an
`error` field raises the "API error" exception carrying the message value
(default "Unknown error"); otherwise a chunk with `result.audioContent` has
that payload base64-decoded (decoder passed in as `b64`, `none` modelling a
binascii decode failure) and contributes audio bytes; any other chunk is
ignored. Every raised exception is re-raised by the inner handler. -/
def processChunk (b64 : String → Option (List Nat)) (c : Json) :
    Except PyErr (Option (List Nat)) :=
  match pyIn "error" c with
  | .error e => .error e
  | .ok true =>
    match pyGetItem c "error" with
    | .error e => .error e
    | .ok v =>
      match pyDictGet v "message" (Json.str "Unknown error") with
      | .error e => .error e
      | .ok m => .error (.apiError m)
  | .ok false =>
    match pyIn "result" c with
    | .error e => .error e
    | .ok false => .ok none
    | .ok true =>
      match pyGetItem c "result" with
      | .error e => .error e
      | .ok r =>
        match pyIn "audioContent" r with
        | .error e => .error e
        | .ok false => .ok none
        | .ok true =>
          match pyGetItem r "audioContent" with
          | .error e => .error e
          | .ok (.str s) =>
            match b64 s with
            | some bs => .ok (some bs)
            | none => .error .binasciiError
          | .ok _ => .error .typeError

/-- Processing of one raw response line (tts.py lines 273-304): blank lines
are skipped, a line that fails to parse as JSON (`loads` returns `none`,
modelling json.JSONDecodeError) is skipped, every other line goes through
`processChunk`. `some bs` means the line contributed the audio bytes `bs`. -/
def lineResult (loads : String → Option Json) (b64 : String → Option (List Nat))
    (l : String) : Except PyErr (Option (List Nat)) :=
  if isBlank l then .ok none
  else
    match loads l with
    | none => .ok none
    | some c => processChunk b64 c

/-- The chunk accumulator loop of `_make_streaming_request`: consumes the
lines in order, collecting contributed audio chunks in arrival order, and
aborts with the first raised exception. -/
def runStream (loads : String → Option Json) (b64 : String → Option (List Nat)) :
    List String → Except PyErr (List (List Nat))
  | [] => .ok []
  | l :: rest =>
    match lineResult loads b64 l with
    | .error e => .error e
    | .ok none => runStream loads b64 rest
    | .ok (some bs) => (runStream loads b64 rest).map (fun cs => bs :: cs)

/-- `InworldTTSEntity._make_streaming_request` over an already-received body:
the response lines are processed in order and the collected chunks are
joined (`b"".join(audio_chunks)`). `loads` models json.loads and `b64`
models base64.b64decode on the strings the stream carries. -/
def make_streaming_request (loads : String → Option Json)
    (b64 : String → Option (List Nat)) (lines : List String) :
    Except PyErr (List Nat) :=
  (runStream loads b64 lines).map (fun chunks => chunks.flatten)

/-- The audio bytes a single line contributes on the successful path. -/
def lineAudio (loads : String → Option Json) (b64 : String → Option (List Nat))
    (l : String) : Option (List Nat) :=
  match lineResult loads b64 l with
  | .ok (some bs) => some bs
  | _ => none

/-- Whether processing a line raises no exception. -/
def lineOk (loads : String → Option Json) (b64 : String → Option (List Nat))
    (l : String) : Bool :=
  match lineResult loads b64 l with
  | .ok _ => true
  | .error _ => false

/-- Constants from const.py. -/
def TITLE : String := "Inworld TTS"

def DEFAULT_API_BASE_URL : String := "https://api.inworld.ai/"

def DEFAULT_AUDIO_ENCODING : String := "mp3"

def DEFAULT_MODEL_ID : String := "inworld-tts-1"

def DEFAULT_SAMPLE_RATE_HERTZ : Int := 48000

def DEFAULT_TEMPERATURE : Rat := 0.8

/-- Modelled from the spec: tts.py imports a `DEFAULT_LANGUAGE` constant that
const.py in the sources does not define; the spec gives no default language
either, so an arbitrary value is used here and no theorem below depends on
it. -/
def DEFAULT_LANGUAGE : String := "en"

/-- Member names of the `SupportedAudioEncodings` enum in const.py. -/
def supportedAudioEncodingNames : List String :=
  ["LINEAR16", "MP3", "OGG_OPUS", "ALAW", "MULAW"]

/-- A config entry as the TTS entity sees it: user options and setup data. -/
structure EntityConfig where
  options : List (String × PyVal)
  data : List (String × PyVal)
  deriving DecidableEq, Repr

/-- `InworldTTSEntity._get_config_value`: options first, then data, then the
default; ValueError when the key is absent everywhere and no default was
given (a Python default of None means no default). -/
def get_config_value (cfg : EntityConfig) (key : String) (dflt : Option PyVal) :
    Except PyErr PyVal :=
  match pyLookup cfg.options key with
  | some v => .ok v
  | none =>
    match pyLookup cfg.data key with
    | some v => .ok v
    | none =>
      match dflt with
      | some d => .ok d
      | none => .error (.valueError key)

/-- A value of the synthesis request payload: either a primitive config value
or the nested audioConfig dict. -/
inductive PayloadVal where
  | prim (v : PyVal)
  | dict (fields : List (String × PyVal))
  deriving DecidableEq, Repr

/-- The body of the first try block of `async_get_tts_audio` (tts.py lines
147-188): reject a requested language different from the configured one,
resolve the voice (per-call override from options, else the configured
voice_id), then build the streaming request payload from the configured
values. ValueError from a missing required key propagates to the caller of
this inner function. -/
def tts_prepare_inner (cfg : EntityConfig) (message language : String)
    (options : Option (List (String × PyVal))) :
    Except PyErr (List (String × PayloadVal)) :=
  match get_config_value cfg "language" (some (.str DEFAULT_LANGUAGE)) with
  | .error e => .error e
  | .ok configured =>
    if PyVal.str language ≠ configured then .error (.languageNotSupported language)
    else
      match get_config_value cfg "voice_id" (some (.str "")) with
      | .error e => .error e
      | .ok voiceDefault =>
        let voice :=
          match options with
          | some opts =>
            if opts.isEmpty then voiceDefault
            else (pyLookup opts "voice").getD voiceDefault
          | none => voiceDefault
        match get_config_value cfg "api_url" none with
        | .error e => .error e
        | .ok _apiUrl =>
          match get_config_value cfg "api_key" none with
          | .error e => .error e
          | .ok _apiKey =>
            match get_config_value cfg "model_id" (some (.str DEFAULT_MODEL_ID)) with
            | .error e => .error e
            | .ok modelId =>
              match get_config_value cfg "temperature" (some (.float DEFAULT_TEMPERATURE)) with
              | .error e => .error e
              | .ok temperature =>
                match get_config_value cfg "audio_encoding" (some (.str DEFAULT_AUDIO_ENCODING)) with
                | .error e => .error e
                | .ok encoding =>
                  match get_config_value cfg "sample_rate_hertz" (some (.int DEFAULT_SAMPLE_RATE_HERTZ)) with
                  | .error e => .error e
                  | .ok rate =>
                    .ok [("text", .prim (.str message)),
                         ("voiceId", .prim voice),
                         ("modelId", .prim modelId),
                         ("temperature", .prim temperature),
                         ("audioConfig", .dict [("audioEncoding", encoding),
                                                ("sampleRateHertz", rate)])]

/-- The first try block with its `except ValueError` handler, which re-raises
a missing-configuration ValueError as the "Configuration error" exception;
the language-mismatch exception is not a ValueError and passes through
unchanged. -/
def tts_prepare (cfg : EntityConfig) (message language : String)
    (options : Option (List (String × PyVal))) :
    Except PyErr (List (String × PayloadVal)) :=
  match tts_prepare_inner cfg message language options with
  | .error (.valueError k) => .error (.configurationError k)
  | r => r

/-- The file-extension mapping of `async_get_tts_audio` (tts.py lines
203-221): uppercase the configured encoding (AttributeError on a non-string
value) and map it to an extension, defaulting to mp3. -/
def audioExtension (cfg : EntityConfig) : Except PyErr String := do
  let enc ← get_config_value cfg "audio_encoding" (some (.str DEFAULT_AUDIO_ENCODING))
  match enc with
  | .str s =>
    let e := pyUpper s
    if e = "MP3" then pure "mp3"
    else if e = "LINEAR16" then pure "wav"
    else if e = "OGG_OPUS" then pure "opus"
    else if e = "ALAW" ∨ e = "MULAW" then pure "wav"
    else pure "mp3"
  | _ => throw .attributeError

/-- Transport-level outcome of the streaming POST: a body of response lines,
an HTTP error status raised by raise_for_status, or another client error. -/
inductive NetOutcome where
  | lines (ls : List String)
  | responseError (status : Nat)
  | clientError

/-- `InworldTTSEntity.async_get_tts_audio` over a modelled network outcome:
the prepare phase runs first (its exceptions propagate uncaught), then the
streaming request; HTTP 401 maps to the invalid-API-key exception, 429 to
rate-limit, other statuses to an HTTP error, client errors to a connect
error, and any other exception from the stream (or from the extension
mapping) is re-raised as the generic unexpected-error exception. -/
def async_get_tts_audio (cfg : EntityConfig) (message language : String)
    (options : Option (List (String × PyVal)))
    (loads : String → Option Json) (b64 : String → Option (List Nat))
    (net : NetOutcome) : Except PyErr (String × List Nat) :=
  match tts_prepare cfg message language options with
  | .error e => .error e
  | .ok _payload =>
    match net with
    | .responseError s =>
      if s = 401 then .error .invalidApiKey
      else if s = 429 then .error .rateLimitError
      else .error (.httpError s)
    | .clientError => .error .cannotConnect
    | .lines ls =>
      match make_streaming_request loads b64 ls with
      | .error _ => .error .unexpectedTts
      | .ok audio =>
        match audioExtension cfg with
        | .ok ext => .ok (ext, audio)
        | .error _ => .error .unexpectedTts

/-- One entry of the per-language voice list built by
`get_voices_and_languages`: the dict with the voice id as `value` and the
display label as `label`. -/
structure VoiceOption where
  value : String
  label : String
  deriving DecidableEq, Repr

/-- The language-indexed voice catalog, in dict insertion order. -/
abbrev Catalog := List (String × List VoiceOption)

/-- One voice record of the remote voices response: `voiceId` (absent field
modelled as none, its access raises KeyError), optional `displayName`
(either absent or possibly the empty string) and the declared languages. -/
structure VoiceRec where
  voiceId : Option String
  displayName : Option String
  languages : List String
  deriving DecidableEq, Repr

/-- The option dict built per (voice, language) pair in config_flow.py lines
70-75: the label falls back to the voice id when displayName is missing or
falsy (empty). -/
def voiceOption (vid : String) (displayName : Option String) : VoiceOption :=
  { value := vid,
    label :=
      match displayName with
      | some d => if d = "" then vid else d
      | none => vid }

/-- Appending one voice option under one language key, with Python dict
semantics: update the existing entry in place, or append a new key at the
end. -/
def addVoice : Catalog → String → VoiceOption → Catalog
  | [], lang, opt => [(lang, [opt])]
  | (l, vs) :: rest, lang, opt =>
    if l = lang then (l, vs ++ [opt]) :: rest
    else (l, vs) :: addVoice rest lang opt

/-- The catalog-building double loop of `get_voices_and_languages`
(config_flow.py lines 65-75), threading the dict through the voice records:
a record with languages but no voiceId raises KeyError. -/
def buildCatalog : List VoiceRec → Catalog → Except PyErr Catalog
  | [], cat => .ok cat
  | v :: rest, cat =>
    match v.voiceId with
    | none =>
      if v.languages.isEmpty then buildCatalog rest cat
      else .error (.keyError "voiceId")
    | some vid =>
      buildCatalog rest
        (v.languages.foldl (fun c lang => addVoice c lang (voiceOption vid v.displayName)) cat)

/-- Transport-level outcome of the voices GET: a decoded list of voice
records, an HTTP error status from raise_for_status, or another client
error. -/
inductive FetchOutcome where
  | ok (voices : List VoiceRec)
  | responseError (status : Nat)
  | clientError

/-- `get_voices_and_languages` over a modelled network outcome: build the
per-language index on success; a response error with status 401 raises
InvalidAuth, any other response error or client error raises CannotConnect
(config_flow.py lines 83-93). A KeyError from the catalog build propagates
unconverted. -/
def get_voices_and_languages (outcome : FetchOutcome) : Except PyErr Catalog :=
  match outcome with
  | .ok voices => buildCatalog voices []
  | .responseError status =>
    if status = 401 then .error .invalidAuth else .error .cannotConnect
  | .clientError => .error .cannotConnect

/-- Outcome of a config-flow step: entry creation or re-rendering a form
with error codes. -/
inductive ConfigFlowResult where
  | createEntry (title : String) (data : List (String × PyVal))
  | showForm (stepId : String) (errors : List (String × String))
  deriving DecidableEq, Repr

/-- `InworldTTSConfigFlow.async_step_user`: with no input, show the
credentials form; with input, run the catalog fetch purely as a connection
check and immediately create the entry on success, otherwise re-show the
credentials form with the mapped error code (InvalidAuth becomes
invalid_auth, CannotConnect becomes cannot_connect, anything else becomes
unknown). -/
def async_step_user (user_input : Option (List (String × PyVal)))
    (outcome : FetchOutcome) : ConfigFlowResult :=
  match user_input with
  | none => .showForm "user" []
  | some input =>
    match get_voices_and_languages outcome with
    | .ok _ => .createEntry TITLE input
    | .error .cannotConnect => .showForm "user" [("base", "cannot_connect")]
    | .error .invalidAuth => .showForm "user" [("base", "invalid_auth")]
    | .error _ => .showForm "user" [("base", "unknown")]

/-- Dict lookup in the catalog. -/
def catLookup (cat : Catalog) (lang : String) : Option (List VoiceOption) :=
  (cat.find? (fun p => p.1 == lang)).map (fun p => p.2)

/-- The mutable fields of `InworldTTSOptionsFlow`: the fetched catalog and
the currently selected language (the raw submitted value). -/
structure OptionsFlowState where
  voices_by_language : Catalog
  selected_language : Option PyVal
  deriving DecidableEq, Repr

/-- The language-change guard of `InworldTTSOptionsFlow.async_step_init`
(config_flow.py lines 172-191): when the submission carries a language
different from the currently selected one, the selection is updated and the
form is re-shown (second component true) unless the submission also carries
a voice_id listed in the catalog under the new language; in every other
case the step falls through to validation with the state unchanged. -/
def async_step_init_decision (st : OptionsFlowState)
    (input : List (String × PyVal)) : OptionsFlowState × Bool :=
  match pyLookup input "language" with
  | none => (st, false)
  | some newLang =>
    if st.selected_language = some newLang then (st, false)
    else
      let st' := { st with selected_language := some newLang }
      let voiceValid :=
        match pyLookup input "voice_id" with
        | none => false
        | some vid =>
          match newLang with
          | .str s =>
            match catLookup st.voices_by_language s with
            | some voices => voices.any (fun v => PyVal.str v.value == vid)
            | none => false
          | _ => false
      (st', !voiceValid)

/-- Python `a or b` on optional form values: the first operand when truthy,
otherwise the second. -/
def pyOr (a b : Option PyVal) : Option PyVal :=
  match a with
  | some v => if pyTruthy v then some v else b
  | none => b

/-- Insertion of a string into a sorted list of strings. -/
def insertSorted (x : String) : List String → List String
  | [] => [x]
  | y :: rest => if x ≤ y then x :: y :: rest else y :: insertSorted x rest

/-- Sorting a list of strings, modelling Python `sorted`. -/
def sortStrings : List String → List String
  | [] => []
  | x :: rest => insertSorted x (sortStrings rest)

/-- The voice-option computation of `_show_options_form` (config_flow.py
lines 234-247): the selected language falls back to the persisted option,
then to the first catalog key in sorted order, and the rendered voice
options are the catalog list of that language when it is a catalog key
(otherwise the voice field degrades to free text, modelled as no options). -/
def formVoiceOptions (st : OptionsFlowState)
    (currentOptions : List (String × PyVal)) : List VoiceOption :=
  let sel := pyOr st.selected_language (pyLookup currentOptions "language")
  let selTruthy := match sel with | some v => pyTruthy v | none => false
  let sel :=
    if !selTruthy ∧ !st.voices_by_language.isEmpty then
      some (.str ((sortStrings (st.voices_by_language.map (fun p => p.1))).headD ""))
    else sel
  match sel with
  | some (.str s) =>
    if (PyVal.str s |> pyTruthy) then (catLookup st.voices_by_language s).getD []
    else []
  | _ => []

/-- The probe request payload built by `validate_voice_input` (config_flow.py
lines 323-341): the fixed text "Test", the submitted voice_id and model_id
(KeyError when absent), the submitted temperature when present, and an
audioConfig assembled from the submitted sample_rate_hertz and, when an
"audio_encoding" key is present, the uppercased value of the "audioEncoding"
key of the submission, defaulting to "mp3" — resolved through the
SupportedAudioEncodings enum (KeyError when not a member name,
AttributeError when the value is not a string). -/
def validate_voice_input_payload (data : List (String × PyVal)) :
    Except PyErr (List (String × PayloadVal)) := do
  let voiceId ←
    match pyLookup data "voice_id" with
    | some v => pure v
    | none => throw (.keyError "voice_id")
  let modelId ←
    match pyLookup data "model_id" with
    | some v => pure v
    | none => throw (.keyError "model_id")
  let payload := [("text", PayloadVal.prim (.str "Test")),
                  ("voiceId", PayloadVal.prim voiceId),
                  ("modelId", PayloadVal.prim modelId)]
  let payload :=
    match pyLookup data "temperature" with
    | some t => payload ++ [("temperature", PayloadVal.prim t)]
    | none => payload
  let audioConfig : List (String × PyVal) :=
    match pyLookup data "sample_rate_hertz" with
    | some r => [("sampleRateHertz", r)]
    | none => []
  let audioConfig ←
    if (pyLookup data "audio_encoding").isSome then
      match (pyLookup data "audioEncoding").getD (.str DEFAULT_AUDIO_ENCODING) with
      | .str s =>
        if pyUpper s ∈ supportedAudioEncodingNames then
          pure (audioConfig ++ [("audioEncoding", PyVal.str (pyUpper s))])
        else throw (.keyError (pyUpper s))
      | _ => throw .attributeError
    else pure audioConfig
  let payload :=
    if audioConfig.isEmpty then payload
    else payload ++ [("audioConfig", PayloadVal.dict audioConfig)]
  pure payload

/-- Transport-level outcome of the validation probe POST. -/
inductive ProbeOutcome where
  | ok
  | responseError (status : Nat)
  | clientError

/-- The error mapping of the probe call in `validate_voice_input`
(config_flow.py lines 345-364): 401 raises InvalidAuth, any other response
error or client error raises CannotConnect. -/
def probeResult : ProbeOutcome → Except PyErr Unit
  | .ok => .ok ()
  | .responseError status =>
    if status = 401 then .error .invalidAuth else .error .cannotConnect
  | .clientError => .error .cannotConnect

/-- `validate_voice_input` over a modelled probe outcome: the payload is
built first (outside the try block, so its exceptions propagate raw), then
the probe outcome decides the result. -/
def validate_voice_input (data : List (String × PyVal))
    (probe : ProbeOutcome) : Except PyErr Unit :=
  match validate_voice_input_payload data with
  | .error e => .error e
  | .ok _ => probeResult probe

/-- Outcome of an options-flow step: entry creation with the submitted
options, or re-rendering the options form from a flow state with error
codes. -/
inductive OptionsStepResult where
  | createEntry (data : List (String × PyVal))
  | showForm (st : OptionsFlowState) (errors : List (String × String))
  deriving DecidableEq, Repr

/-- Error code shown by the options flow for a validation exception. -/
def optionsErrorCode : PyErr → String
  | .cannotConnect => "cannot_connect"
  | .invalidAuth => "invalid_auth"
  | _ => "unknown"

/-- Python dict item assignment on the errors dict. -/
def setItem (d : List (String × String)) (k v : String) :
    List (String × String) :=
  if (d.find? (fun p => p.1 == k)).isSome then
    d.map (fun p => if p.1 == k then (k, v) else p)
  else d ++ [(k, v)]

/-- The fetch-on-first-load block of `async_step_init` (config_flow.py lines
211-222): when the catalog is still empty, fetch it; on any fetch failure
set the base error to cannot_connect; then show the options form. -/
def fetchIfEmpty (st : OptionsFlowState) (errors : List (String × String))
    (fetch : FetchOutcome) : OptionsStepResult :=
  if st.voices_by_language.isEmpty then
    match get_voices_and_languages fetch with
    | .ok cat => .showForm { st with voices_by_language := cat } errors
    | .error _ => .showForm st (setItem errors "base" "cannot_connect")
  else .showForm st errors

/-- `InworldTTSOptionsFlow.async_step_init` over modelled network outcomes:
with a submission, the language-change guard either re-shows the form
immediately (before any network call) or the submission is validated; a
successful validation creates the options entry, a failed one re-shows the
form with the mapped error code after the fetch-on-first-load block. With
no submission the fetch-on-first-load block runs directly. -/
def async_step_init (st : OptionsFlowState)
    (user_input : Option (List (String × PyVal)))
    (probe : ProbeOutcome) (fetch : FetchOutcome) : OptionsStepResult :=
  match user_input with
  | none => fetchIfEmpty st [] fetch
  | some input =>
    let dec := async_step_init_decision st input
    if dec.2 then .showForm dec.1 []
    else
      match validate_voice_input input probe with
      | .ok _ => .createEntry input
      | .error e => fetchIfEmpty dec.1 [("base", optionsErrorCode e)] fetch

/-- The voice ids contributed to language `l` by a voices response, with
multiplicity: one occurrence per (record, matching language entry) pair, in
response order. -/
def langVoiceIds (l : String) (voices : List VoiceRec) : List String :=
  voices.flatMap (fun v =>
    match v.voiceId with
    | some vid => (v.languages.filter (fun x => x == l)).map (fun _ => vid)
    | none => [])

/-- The voice options contributed to language `l` by a voices response, with
multiplicity, in response order. -/
def langOptsList (l : String) (voices : List VoiceRec) : List VoiceOption :=
  voices.flatMap (fun v =>
    match v.voiceId with
    | some vid =>
      (v.languages.filter (fun x => x == l)).map (fun _ => voiceOption vid v.displayName)
    | none => [])

/-- The voice list stored under a language, empty when the key is absent. -/
def optsAt (cat : Catalog) (l : String) : List VoiceOption :=
  (catLookup cat l).getD []

/-- Uniqueness of voice ids within each language list of a catalog. -/
def catalogValuesUnique (cat : Catalog) : Prop :=
  ∀ p ∈ cat, (p.2.map VoiceOption.value).Nodup

/-- Whether a config-flow step finished by creating the entry. -/
def isCreateEntry : ConfigFlowResult → Bool
  | .createEntry _ _ => true
  | .showForm _ _ => false

/-- Sample stream decoder covering the shapes exercised by the stream
theorems: two well-formed audio chunks, one error chunk, one chunk whose
audio payload does not decode, everything else failing to parse. -/
def demoLoads : String → Option Json := fun l =>
  if l = "A" then some (.obj [("result", .obj [("audioContent", .str "aa")])])
  else if l = "B" then some (.obj [("result", .obj [("audioContent", .str "bb")])])
  else if l = "E" then some (.obj [("error", .obj [("message", .str "boom")])])
  else if l = "X" then some (.obj [("result", .obj [("audioContent", .str "xx")])])
  else none

/-- Sample base64 decoder matching `demoLoads`: "aa" and "bb" decode, "xx"
does not. -/
def demoB64 : String → Option (List Nat) := fun s =>
  if s = "aa" then some [1, 2] else if s = "bb" then some [3] else none

/-- Sample entity configuration with a configured language "en". -/
def cfgDemo : EntityConfig :=
  ⟨[("language", .str "en"), ("voice_id", .str "v1")],
   [("api_url", .str "https://api.inworld.ai/"), ("api_key", .str "K")]⟩

/-- Sample options submission carrying all candidate parameters, with
audio_encoding LINEAR16. -/
def c1Submission : List (String × PyVal) :=
  [("language", .str "en"), ("voice_id", .str "v1"),
   ("model_id", .str "inworld-tts-1"), ("audio_encoding", .str "LINEAR16"),
   ("sample_rate_hertz", .int 48000), ("temperature", .float 0.8)]

/-- A voices response in which the same voice id reaches the same language
twice. -/
def c4DupVoices : List VoiceRec := [⟨some "v", none, ["en", "en"]⟩]

/-- The catalog the fetcher builds from `c4DupVoices`. -/
def c4DupCatalog : Catalog := [("en", [⟨"v", "v"⟩, ⟨"v", "v"⟩])]

/-- A duplicate-free voices response over two languages. -/
def c4GoodVoices : List VoiceRec :=
  [⟨some "v1", some "Voice One", ["en"]⟩, ⟨some "v2", none, ["en", "fr"]⟩]

/-- The catalog the fetcher builds from `c4GoodVoices`. -/
def c4GoodCatalog : Catalog :=
  [("en", [⟨"v1", "Voice One"⟩, ⟨"v2", "v2"⟩]), ("fr", [⟨"v2", "v2"⟩])]

/-- Sample options-flow state: catalog with only "en", "en" selected. -/
def c5State : OptionsFlowState :=
  ⟨[("en", [⟨"v1", "Voice One"⟩])], some (.str "en")⟩

/-- A submission changing the language to "fr" while carrying an
"en"-only voice id. -/
def c5ChangeInput : List (String × PyVal) :=
  [("language", .str "fr"), ("voice_id", .str "v1"), ("model_id", .str "m")]

/-- A submission keeping the selected language "en" with a voice id absent
from the catalog. -/
def c5KeepInput : List (String × PyVal) :=
  [("language", .str "en"), ("voice_id", .str "bogus"), ("model_id", .str "m")]

/-- Sample credentials submission. -/
def c6Input : List (String × PyVal) :=
  [("api_url", .str "https://api.inworld.ai/"), ("api_key", .str "K")]

/-- Sample voices response for a successful credentials check. -/
def c6Voices : List VoiceRec := [⟨some "v1", some "Voice One", ["en"]⟩]

theorem runStream_append (loads : String → Option Json)
    (b64 : String → Option (List Nat)) (xs ys : List String) :
    runStream loads b64 (xs ++ ys) =
      match runStream loads b64 xs with
      | .error e => .error e
      | .ok cs => (runStream loads b64 ys).map (fun ds => cs ++ ds) := by
  induction xs with
  | nil =>
    cases h : runStream loads b64 ys <;> simp [runStream, Except.map, h]
  | cons l rest ih =>
    cases hl : lineResult loads b64 l with
    | error e => simp [runStream, hl]
    | ok o =>
      cases o with
      | none => simp [runStream, hl, ih]
      | some bs =>
        simp only [List.cons_append, runStream, hl, ih, List.append_eq]
        cases h1 : runStream loads b64 rest with
        | error e => simp [Except.map]
        | ok cs =>
          cases h2 : runStream loads b64 ys with
          | error e => simp [Except.map]
          | ok ds => simp [Except.map]

theorem runStream_all_ok (loads : String → Option Json)
    (b64 : String → Option (List Nat)) (lines : List String)
    (h : ∀ l ∈ lines, lineOk loads b64 l = true) :
    runStream loads b64 lines = .ok (lines.filterMap (lineAudio loads b64)) := by
  induction lines with
  | nil => simp [runStream]
  | cons l rest ih =>
    have hl := h l (by simp)
    have hrest : ∀ x ∈ rest, lineOk loads b64 x = true := fun x hx => h x (by simp [hx])
    cases hres : lineResult loads b64 l with
    | error e => simp [lineOk, hres] at hl
    | ok o =>
      cases o with
      | none => simp [runStream, hres, lineAudio, ih hrest]
      | some bs => simp [runStream, hres, lineAudio, ih hrest, Except.map]

theorem processChunk_error_field (b64 : String → Option (List Nat))
    (fs : List (String × Json)) (v m : Json)
    (herr : jsonLookup fs "error" = some v)
    (hmsg : pyDictGet v "message" (Json.str "Unknown error") = .ok m) :
    processChunk b64 (.obj fs) = .error (.apiError m) := by
  simp [processChunk, pyIn, pyGetItem, herr, hmsg]

theorem processChunk_result_field (b64 : String → Option (List Nat))
    (fs rfs : List (String × Json)) (s : String) (hnoerr : jsonLookup fs "error" = none)
    (hres : jsonLookup fs "result" = some (.obj rfs))
    (hac : jsonLookup rfs "audioContent" = some (.str s)) :
    processChunk b64 (.obj fs) =
      match b64 s with
      | some bs => .ok (some bs)
      | none => .error .binasciiError := by
  cases hb : b64 s with
  | none => simp [processChunk, pyIn, pyGetItem, hnoerr, hres, hac, hb]
  | some bs => simp [processChunk, pyIn, pyGetItem, hnoerr, hres, hac, hb]

theorem runStream_skip (loads : String → Option Json)
    (b64 : String → Option (List Nat)) (pre post : List String) (bad : String)
    (hskip : lineResult loads b64 bad = .ok none) :
    runStream loads b64 (pre ++ bad :: post) = runStream loads b64 (pre ++ post) := by
  rw [runStream_append, runStream_append]
  have hs : runStream loads b64 (bad :: post) = runStream loads b64 post := by
    simp [runStream, hskip]
  rw [hs]

theorem runStream_abort (loads : String → Option Json)
    (b64 : String → Option (List Nat)) (pre post : List String) (bad : String)
    (cs : List (List Nat)) (e : PyErr)
    (hpre : runStream loads b64 pre = .ok cs)
    (hbad : lineResult loads b64 bad = .error e) :
    runStream loads b64 (pre ++ bad :: post) = .error e := by
  rw [runStream_append, hpre]
  simp [runStream, hbad, Except.map]

/-- C2: a stream line parsing to JSON with an `error` field whose message is
the string m makes the synthesis call fail with the API-error exception
carrying m, independently of the lines after it, provided the lines before
it processed without an exception; no result value (hence no accumulated
audio) is ever returned, and the entity call wrapping the stream yields the
re-raised failure instead of audio. -/
theorem stream_error_line_aborts (loads : String → Option Json)
    (b64 : String → Option (List Nat)) (pre post : List String) (errLine : String)
    (cs : List (List Nat)) (fs : List (String × Json)) (v : Json) (m : String)
    (hpre : runStream loads b64 pre = .ok cs)
    (hblank : isBlank errLine = false)
    (hparse : loads errLine = some (.obj fs))
    (herr : jsonLookup fs "error" = some v)
    (hmsg : pyDictGet v "message" (Json.str "Unknown error") = .ok (.str m)) :
    make_streaming_request loads b64 (pre ++ errLine :: post) =
      .error (.apiError (.str m))
    ∧ make_streaming_request loads b64 (pre ++ errLine :: post) =
        make_streaming_request loads b64 (pre ++ [errLine])
    ∧ (∀ res, make_streaming_request loads b64 (pre ++ errLine :: post) ≠ .ok res)
    ∧ (∀ cfg message language options pay,
        tts_prepare cfg message language options = .ok pay →
        async_get_tts_audio cfg message language options loads b64
          (.lines (pre ++ errLine :: post)) = .error .unexpectedTts) := by
  have hline : lineResult loads b64 errLine = .error (.apiError (.str m)) := by
    simp [lineResult, hblank, hparse]
    exact processChunk_error_field b64 fs v (.str m) herr hmsg
  have habort := runStream_abort loads b64 pre post errLine cs _ hpre hline
  have habort0 := runStream_abort loads b64 pre [] errLine cs _ hpre hline
  have hmain : make_streaming_request loads b64 (pre ++ errLine :: post) =
      .error (.apiError (.str m)) := by
    simp [make_streaming_request, habort, Except.map]
  have hmain0 : make_streaming_request loads b64 (pre ++ [errLine]) =
      .error (.apiError (.str m)) := by
    simp [make_streaming_request, habort0, Except.map]
  refine ⟨hmain, hmain.trans hmain0.symm, ?_, ?_⟩
  · intro res hres
    rw [hmain] at hres
    exact Except.noConfusion hres
  · intro cfg message language options pay hprep
    simp [async_get_tts_audio, hprep, hmain]

/-- C2 witness: the concrete stream A, error(boom), B fails with the
API-error exception carrying "boom". -/
theorem stream_error_line_aborts_witness :
    make_streaming_request demoLoads demoB64 ["A", "E", "B"] =
      .error (.apiError (.str "boom")) :=
  (stream_error_line_aborts demoLoads demoB64 ["A"] ["B"] "E" [[1, 2]]
    [("error", .obj [("message", .str "boom")])]
    (.obj [("message", .str "boom")]) "boom" rfl rfl rfl rfl rfl).1

/-- C3: when every line of the stream processes without an exception, the
synthesis call returns exactly the concatenation, in arrival order, of the
audio contributed by each line; and a line whose JSON carries no `error`
field and a `result.audioContent` string contributes precisely the base64
decoding of that string. -/
theorem stream_concatenates_audio (loads : String → Option Json)
    (b64 : String → Option (List Nat)) (lines : List String)
    (hok : ∀ l ∈ lines, lineOk loads b64 l = true) :
    make_streaming_request loads b64 lines =
      .ok ((lines.filterMap (lineAudio loads b64)).flatten)
    ∧ (∀ fs rfs s bs, jsonLookup fs "error" = none →
        jsonLookup fs "result" = some (.obj rfs) →
        jsonLookup rfs "audioContent" = some (.str s) →
        b64 s = some bs →
        processChunk b64 (.obj fs) = .ok (some bs)) := by
  constructor
  · simp [make_streaming_request, runStream_all_ok loads b64 lines hok, Except.map]
  · intro fs rfs s bs hnoerr hres hac hb
    rw [processChunk_result_field b64 fs rfs s hnoerr hres hac, hb]

/-- C3 witness: the concrete two-chunk stream A, B returns the decoded bytes
of A followed by those of B. -/
theorem stream_concatenates_audio_witness :
    make_streaming_request demoLoads demoB64 ["A", "B"] = .ok [1, 2, 3] :=
  ((stream_concatenates_audio demoLoads demoB64 ["A", "B"] (by decide)).1).trans rfl

/-- C8: a non-blank line that fails to parse as JSON is skipped: the
synthesis call returns exactly what it returns on the stream with that line
absent, so such a line never causes the call to fail. -/
theorem invalid_json_line_skipped (loads : String → Option Json)
    (b64 : String → Option (List Nat)) (pre post : List String) (bad : String)
    (hblank : isBlank bad = false) (hparse : loads bad = none) :
    make_streaming_request loads b64 (pre ++ bad :: post) =
      make_streaming_request loads b64 (pre ++ post) := by
  have hskip : lineResult loads b64 bad = .ok none := by
    simp [lineResult, hblank, hparse]
  simp [make_streaming_request, runStream_skip loads b64 pre post bad hskip]

/-- C8 witness: the concrete stream A, junk, B returns the same audio as the
stream A, B. -/
theorem invalid_json_line_skipped_witness :
    make_streaming_request demoLoads demoB64 ["A", "junk", "B"] =
      make_streaming_request demoLoads demoB64 ["A", "B"] :=
  invalid_json_line_skipped demoLoads demoB64 ["A"] ["B"] "junk" rfl rfl

/-- C9: a line parsing to JSON with a `result.audioContent` string that the
base64 decoder rejects aborts the whole synthesis call with the decode
error, independently of the lines after it, provided the lines before it
processed without an exception; the audio accumulated before it is
discarded, never returned. -/
theorem invalid_base64_aborts (loads : String → Option Json)
    (b64 : String → Option (List Nat)) (pre post : List String) (bad : String)
    (cs : List (List Nat)) (fs rfs : List (String × Json)) (s : String)
    (hpre : runStream loads b64 pre = .ok cs)
    (hblank : isBlank bad = false)
    (hparse : loads bad = some (.obj fs))
    (hnoerr : jsonLookup fs "error" = none)
    (hres : jsonLookup fs "result" = some (.obj rfs))
    (hac : jsonLookup rfs "audioContent" = some (.str s))
    (hb64 : b64 s = none) :
    make_streaming_request loads b64 (pre ++ bad :: post) = .error .binasciiError
    ∧ (∀ res, make_streaming_request loads b64 (pre ++ bad :: post) ≠ .ok res) := by
  have hline : lineResult loads b64 bad = .error .binasciiError := by
    simp [lineResult, hblank, hparse]
    rw [processChunk_result_field b64 fs rfs s hnoerr hres hac, hb64]
  have habort := runStream_abort loads b64 pre post bad cs _ hpre hline
  have hmain : make_streaming_request loads b64 (pre ++ bad :: post) =
      .error .binasciiError := by
    simp [make_streaming_request, habort, Except.map]
  refine ⟨hmain, fun res hres => ?_⟩
  rw [hmain] at hres
  exact Except.noConfusion hres

/-- C9 witness: the concrete stream A, X, B, where the audio payload of X
does not decode, fails with the decode error. -/
theorem invalid_base64_aborts_witness :
    make_streaming_request demoLoads demoB64 ["A", "X", "B"] =
      .error .binasciiError :=
  (invalid_base64_aborts demoLoads demoB64 ["A"] ["B"] "X" [[1, 2]]
    [("result", .obj [("audioContent", .str "xx")])]
    [("audioContent", .str "xx")] "xx" rfl rfl rfl rfl rfl rfl rfl).1

theorem get_config_value_default_ok (cfg : EntityConfig) (key : String) (d : PyVal) :
    ∃ v, get_config_value cfg key (some d) = .ok v := by
  cases ho : pyLookup cfg.options key with
  | some v => exact ⟨v, by simp [get_config_value, ho]⟩
  | none =>
    cases hd : pyLookup cfg.data key with
    | some v => exact ⟨v, by simp [get_config_value, ho, hd]⟩
    | none => exact ⟨d, by simp [get_config_value, ho, hd]⟩

theorem tts_prepare_inner_lang_mismatch (cfg : EntityConfig)
    (message language : String) (options : Option (List (String × PyVal)))
    (v : PyVal)
    (hv : get_config_value cfg "language" (some (.str DEFAULT_LANGUAGE)) = .ok v)
    (hne : v ≠ .str language) :
    tts_prepare_inner cfg message language options =
      .error (.languageNotSupported language) := by
  simp only [tts_prepare_inner, hv]
  rw [if_pos (show PyVal.str language ≠ v from fun h => hne h.symm)]

theorem tts_prepare_ok_lang (cfg : EntityConfig) (message language : String)
    (options : Option (List (String × PyVal))) (pay : List (String × PayloadVal))
    (h : tts_prepare cfg message language options = .ok pay) :
    get_config_value cfg "language" (some (.str DEFAULT_LANGUAGE)) =
      .ok (.str language) := by
  obtain ⟨v, hv⟩ := get_config_value_default_ok cfg "language" (.str DEFAULT_LANGUAGE)
  by_cases hne : v = PyVal.str language
  · rw [hv, hne]
  · exfalso
    have hm := tts_prepare_inner_lang_mismatch cfg message language options v hv hne
    simp [tts_prepare, hm] at h

/-- C10: a requested language whose value differs from the configured
language makes the prepare phase fail with the language-not-supported
exception before any request payload is built (so no network request is
issued, whatever the network outcome would have been), and conversely a
prepare phase that produces a payload forces the configured language to
equal the requested one. -/
theorem language_mismatch_gate (cfg : EntityConfig) (message language : String)
    (options : Option (List (String × PyVal))) :
    ((∀ v, get_config_value cfg "language" (some (.str DEFAULT_LANGUAGE)) = .ok v →
        v ≠ .str language) →
      tts_prepare cfg message language options = .error (.languageNotSupported language)
      ∧ (∀ loads b64 net, async_get_tts_audio cfg message language options loads b64 net =
          .error (.languageNotSupported language)))
    ∧ (∀ pay, tts_prepare cfg message language options = .ok pay →
        get_config_value cfg "language" (some (.str DEFAULT_LANGUAGE)) =
          .ok (.str language)) := by
  constructor
  · intro hmis
    obtain ⟨v, hv⟩ := get_config_value_default_ok cfg "language" (.str DEFAULT_LANGUAGE)
    have hinner := tts_prepare_inner_lang_mismatch cfg message language options v hv (hmis v hv)
    have hprep : tts_prepare cfg message language options =
        .error (.languageNotSupported language) := by
      simp [tts_prepare, hinner]
    exact ⟨hprep, fun loads b64 net => by simp [async_get_tts_audio, hprep]⟩
  · exact fun pay h => tts_prepare_ok_lang cfg message language options pay h

/-- C10 witness: with "en" configured, requesting "fr" fails with the
language-not-supported exception. -/
theorem language_mismatch_gate_witness :
    tts_prepare cfgDemo "hello" "fr" none = .error (.languageNotSupported "fr") :=
  ((language_mismatch_gate cfgDemo "hello" "fr" none).1
    (fun v hv => by injection hv with h; subst h; decide)).1

/-- C7: a credentials submission whose catalog fetch reports HTTP status 401
re-renders the credentials form with the error code invalid_auth; no entry
is created. -/
theorem credentials_401_invalid_auth (input : List (String × PyVal)) :
    async_step_user (some input) (.responseError 401) =
      .showForm "user" [("base", "invalid_auth")] := rfl

/-- C6 counterexample: a successful credentials submission immediately
creates the configuration entry, so the setup flow is already complete
rather than advancing to a voice-selection step. -/
theorem credentials_success_is_already_complete :
    isCreateEntry (async_step_user (some c6Input) (.ok c6Voices)) = true := rfl

/-- C6 amended: a credentials submission whose catalog fetch succeeds
immediately creates the configuration entry carrying the submitted
credentials; the fetched catalog is discarded and voice selection is left
to the separate options flow. -/
theorem credentials_success_creates_entry (input : List (String × PyVal))
    (outcome : FetchOutcome) (cat : Catalog)
    (h : get_voices_and_languages outcome = .ok cat) :
    async_step_user (some input) outcome = .createEntry TITLE input := by
  simp [async_step_user, h]

/-- C6 witness: a concrete successful submission creates the entry. -/
theorem credentials_success_creates_entry_witness :
    async_step_user (some c6Input) (.ok c6Voices) = .createEntry TITLE c6Input :=
  credentials_success_creates_entry c6Input (.ok c6Voices)
    [("en", [⟨"v1", "Voice One"⟩])] rfl

/-- C1 (code-bug evaluation): for a submission carrying audio_encoding
LINEAR16 together with all other candidate parameters, the probe payload
built by validate_voice_input carries the submitted voice_id, model_id,
temperature and sample_rate_hertz and the fixed text "Test", but its
audioConfig.audioEncoding is "MP3" — the default — instead of the submitted
encoding, because the code reads the key "audioEncoding" which the
submission never contains. -/
theorem validate_probe_drops_submitted_encoding :
    validate_voice_input_payload c1Submission =
      .ok [("text", .prim (.str "Test")), ("voiceId", .prim (.str "v1")),
           ("modelId", .prim (.str "inworld-tts-1")),
           ("temperature", .prim (.float 0.8)),
           ("audioConfig", .dict [("sampleRateHertz", .int 48000),
                                  ("audioEncoding", .str "MP3")])]
    ∧ pyLookup c1Submission "audio_encoding" = some (.str "LINEAR16") :=
  ⟨rfl, rfl⟩

/-- C5 counterexample: with "en" already selected, a submission keeping
language "en" but carrying a voice_id absent from catalog["en"] advances to
validation and creates the entry, so advancing does not require the
submitted voice_id to belong to the current language's catalog list. -/
theorem same_language_bogus_voice_validates :
    async_step_init c5State (some c5KeepInput) .ok (.ok []) = .createEntry c5KeepInput
    ∧ ((catLookup c5State.voices_by_language "en").getD []).all
        (fun v => !(PyVal.str v.value == PyVal.str "bogus")) = true :=
  ⟨rfl, rfl⟩

/-- C5 amended: a submission that changes the selected language and whose
voice_id is absent or not listed under the new language re-renders the form
for the new language — independently of the validation and fetch outcomes,
so the validator is never consulted — with the new language's voice options;
a submission that keeps the current language proceeds to validation
regardless of catalog membership of its voice_id. -/
theorem options_language_guard :
    (∀ (st : OptionsFlowState) (input : List (String × PyVal)) (lang : String),
      pyLookup input "language" = some (.str lang) →
      st.selected_language ≠ some (.str lang) →
      (∀ vid, pyLookup input "voice_id" = some vid →
        ∀ voices, catLookup st.voices_by_language lang = some voices →
          voices.all (fun v => !(PyVal.str v.value == vid)) = true) →
      lang ≠ "" →
      (∀ probe fetch, async_step_init st (some input) probe fetch =
          .showForm { st with selected_language := some (.str lang) } [])
      ∧ (∀ cur, formVoiceOptions { st with selected_language := some (.str lang) } cur =
          (catLookup st.voices_by_language lang).getD []))
    ∧ (∀ (st : OptionsFlowState) (input : List (String × PyVal)) (v : PyVal)
        (probe : ProbeOutcome) (fetch : FetchOutcome),
      pyLookup input "language" = some v →
      st.selected_language = some v →
      validate_voice_input input probe = .ok () →
      async_step_init st (some input) probe fetch = .createEntry input) := by
  constructor
  · intro st input lang hlang hchange hinvalid hne
    have hdec : async_step_init_decision st input =
        ({ st with selected_language := some (.str lang) }, true) := by
      simp only [async_step_init_decision, hlang]
      rw [if_neg hchange]
      cases hvid : pyLookup input "voice_id" with
      | none => simp
      | some vid =>
        cases hcat : catLookup st.voices_by_language lang with
        | none => simp [hcat]
        | some voices =>
          have hall := hinvalid vid hvid voices hcat
          have hany : voices.any (fun v => PyVal.str v.value == vid) = false := by
            rw [List.any_eq_false]
            intro v hv
            have := (List.all_eq_true.mp hall) v hv
            simpa using this
          simp [hcat, hany]
    constructor
    · intro probe fetch
      simp [async_step_init, hdec]
    · intro cur
      have htr : pyTruthy (PyVal.str lang) = true := by simp [pyTruthy, hne]
      simp [formVoiceOptions, pyOr, htr]
  · intro st input v probe fetch hlang hsel hvalid
    simp [async_step_init, async_step_init_decision, hlang, hsel, hvalid]

/-- C5 witness: changing the language to "fr" with an "en"-only voice id
re-renders the form with "fr" selected, regardless of the probe and fetch
outcomes supplied here. -/
theorem options_language_guard_witness :
    async_step_init c5State (some c5ChangeInput) .ok (.ok []) =
      .showForm { c5State with selected_language := some (.str "fr") } [] :=
  (options_language_guard.1 c5State c5ChangeInput "fr" rfl (by decide)
    (fun _vid _hv _voices hc => nomatch hc) (by decide)).1 .ok (.ok [])

theorem addVoice_nonempty (cat : Catalog) (lang : String) (opt : VoiceOption)
    (h : ∀ p ∈ cat, p.2 ≠ []) : ∀ p ∈ addVoice cat lang opt, p.2 ≠ [] := by
  induction cat with
  | nil =>
    intro p hp
    simp [addVoice] at hp
    subst hp
    simp
  | cons hd tl ih =>
    obtain ⟨l0, vs⟩ := hd
    by_cases h0 : l0 = lang
    · subst h0
      intro p hp
      simp [addVoice] at hp
      rcases hp with hp | hp
      · subst hp; simp
      · exact h p (by simp [hp])
    · intro p hp
      simp [addVoice, h0] at hp
      rcases hp with hp | hp
      · subst hp; exact h (l0, vs) (by simp)
      · exact ih (fun q hq => h q (by simp [hq])) p hp

theorem foldl_addVoice_nonempty (opt : VoiceOption) :
    ∀ (langs : List String) (cat : Catalog), (∀ p ∈ cat, p.2 ≠ []) →
      ∀ p ∈ langs.foldl (fun c lg => addVoice c lg opt) cat, p.2 ≠ [] := by
  intro langs
  induction langs with
  | nil => intro cat h; simpa using h
  | cons lg rest ih =>
    intro cat h
    exact ih (addVoice cat lg opt) (addVoice_nonempty cat lg opt h)

theorem buildCatalog_nonempty :
    ∀ (voices : List VoiceRec) (cat out : Catalog), (∀ p ∈ cat, p.2 ≠ []) →
      buildCatalog voices cat = .ok out → ∀ p ∈ out, p.2 ≠ [] := by
  intro voices
  induction voices with
  | nil =>
    intro cat out h hb
    simp only [buildCatalog] at hb
    injection hb with h2
    subst h2
    exact h
  | cons v rest ih =>
    intro cat out h hb
    cases hvid : v.voiceId with
    | none =>
      by_cases hl : v.languages.isEmpty
      · simp only [buildCatalog, hvid, hl, if_pos] at hb
        exact ih cat out h hb
      · simp [buildCatalog, hvid, hl] at hb
    | some vid =>
      simp only [buildCatalog, hvid] at hb
      exact ih _ out (foldl_addVoice_nonempty _ v.languages cat h) hb

theorem addVoice_keys (cat : Catalog) (lang : String) (opt : VoiceOption) :
    (addVoice cat lang opt).map Prod.fst =
      if lang ∈ cat.map Prod.fst then cat.map Prod.fst
      else cat.map Prod.fst ++ [lang] := by
  induction cat with
  | nil => simp [addVoice]
  | cons hd tl ih =>
    obtain ⟨l0, vs⟩ := hd
    by_cases h0 : l0 = lang
    · subst h0; simp [addVoice]
    · have h0' : lang ≠ l0 := fun h => h0 h.symm
      by_cases hm : lang ∈ tl.map Prod.fst
      · simp [addVoice, h0, ih, hm, h0']
      · simp [addVoice, h0, ih, hm, h0']

theorem addVoice_keys_nodup (cat : Catalog) (lang : String) (opt : VoiceOption)
    (h : (cat.map Prod.fst).Nodup) :
    ((addVoice cat lang opt).map Prod.fst).Nodup := by
  rw [addVoice_keys]
  by_cases hm : lang ∈ cat.map Prod.fst
  · simpa [hm] using h
  · simp only [hm, if_neg, ite_false]
    rw [List.nodup_append]
    exact ⟨h, List.nodup_singleton lang,
      fun a ha hb => by simp at hb; subst hb; exact hm ha⟩

theorem foldl_addVoice_keys_nodup (opt : VoiceOption) :
    ∀ (langs : List String) (cat : Catalog), (cat.map Prod.fst).Nodup →
      ((langs.foldl (fun c lg => addVoice c lg opt) cat).map Prod.fst).Nodup := by
  intro langs
  induction langs with
  | nil => intro cat h; simpa using h
  | cons lg rest ih =>
    intro cat h
    exact ih (addVoice cat lg opt) (addVoice_keys_nodup cat lg opt h)

theorem buildCatalog_keys_nodup :
    ∀ (voices : List VoiceRec) (cat out : Catalog), (cat.map Prod.fst).Nodup →
      buildCatalog voices cat = .ok out → (out.map Prod.fst).Nodup := by
  intro voices
  induction voices with
  | nil =>
    intro cat out h hb
    simp only [buildCatalog] at hb
    injection hb with h2
    subst h2
    exact h
  | cons v rest ih =>
    intro cat out h hb
    cases hvid : v.voiceId with
    | none =>
      by_cases hl : v.languages.isEmpty
      · simp only [buildCatalog, hvid, hl, if_pos] at hb
        exact ih cat out h hb
      · simp [buildCatalog, hvid, hl] at hb
    | some vid =>
      simp only [buildCatalog, hvid] at hb
      exact ih _ out (foldl_addVoice_keys_nodup _ v.languages cat h) hb

theorem catLookup_of_mem (cat : Catalog) (p : String × List VoiceOption)
    (hnd : (cat.map Prod.fst).Nodup) (hp : p ∈ cat) :
    catLookup cat p.1 = some p.2 := by
  induction cat with
  | nil => simp at hp
  | cons hd tl ih =>
    obtain ⟨l0, vs⟩ := hd
    rcases List.mem_cons.mp hp with h | h
    · subst h
      simp [catLookup]
    · have hne : ¬(l0 = p.1) := by
        intro he
        have hmem : p.1 ∈ tl.map Prod.fst := List.mem_map_of_mem Prod.fst h
        rw [he] at hnd
        exact (List.nodup_cons.mp (by simpa using hnd)).1 hmem
      have htl : (tl.map Prod.fst).Nodup := (List.nodup_cons.mp (by simpa using hnd)).2
      have hbeq : (l0 == p.1) = false := by simp [hne]
      simpa [catLookup, List.find?, hbeq] using ih htl h

theorem catLookup_addVoice (cat : Catalog) (lang : String) (opt : VoiceOption)
    (l : String) :
    catLookup (addVoice cat lang opt) l =
      if l = lang then some ((catLookup cat l).getD [] ++ [opt])
      else catLookup cat l := by
  induction cat with
  | nil =>
    by_cases h : l = lang
    · subst h; simp [addVoice, catLookup]
    · have hbeq : (lang == l) = false := by simp; exact fun he => h he.symm
      simp [addVoice, catLookup, List.find?, h, hbeq]
  | cons hd tl ih =>
    obtain ⟨l0, vs⟩ := hd
    by_cases h0 : l0 = lang
    · subst h0
      by_cases hl : l0 == l
      · have he : l = l0 := (beq_iff_eq.mp hl).symm
        subst he
        simp [addVoice, catLookup, List.find?]
      · have he : ¬(l = l0) := fun h => absurd (beq_iff_eq.mpr h.symm) (by simpa using hl)
        simp [addVoice, catLookup, List.find?, hl, he]
    · by_cases hl : l0 == l
      · have he : l = l0 := (beq_iff_eq.mp hl).symm
        subst he
        simp [addVoice, catLookup, List.find?, h0, hl]
      · have he : ¬(l = l0) := fun h => absurd (beq_iff_eq.mpr h.symm) (by simpa using hl)
        simp only [addVoice, if_neg h0]
        simp only [catLookup, List.find?, hl]
        simpa [catLookup] using ih

theorem catLookup_foldl_addVoice (opt : VoiceOption) (l : String) :
    ∀ (langs : List String) (cat : Catalog),
      catLookup (langs.foldl (fun c lg => addVoice c lg opt) cat) l =
        match catLookup cat l with
        | some xs => some (xs ++ (langs.filter (fun x => x == l)).map (fun _ => opt))
        | none =>
          match langs.filter (fun x => x == l) with
          | [] => none
          | _ => some (((langs.filter (fun x => x == l)).map (fun _ => opt))) := by
  intro langs
  induction langs with
  | nil =>
    intro cat
    cases h : catLookup cat l <;> simp [h]
  | cons lg rest ih =>
    intro cat
    simp only [List.foldl_cons]
    rw [ih (addVoice cat lg opt)]
    by_cases hlg : (lg == l) = true
    · have he : lg = l := beq_iff_eq.mp hlg
      rw [catLookup_addVoice, if_pos he.symm]
      cases h : catLookup cat l with
      | some xs => simp [List.filter_cons, hlg, h]
      | none => simp [List.filter_cons, hlg, h]
    · have he : ¬(l = lg) := fun h => absurd (beq_iff_eq.mpr h.symm) (by simpa using hlg)
      rw [catLookup_addVoice, if_neg he]
      simp [List.filter_cons, hlg]

theorem buildCatalog_catLookup (l : String) :
    ∀ (voices : List VoiceRec) (cat out : Catalog),
      buildCatalog voices cat = .ok out →
      catLookup out l =
        match catLookup cat l with
        | some xs => some (xs ++ langOptsList l voices)
        | none =>
          match langOptsList l voices with
          | [] => none
          | _ => some (langOptsList l voices) := by
  intro voices
  induction voices with
  | nil =>
    intro cat out hb
    simp only [buildCatalog] at hb
    injection hb with h2
    subst h2
    cases h : catLookup cat l <;> simp [langOptsList, h]
  | cons v rest ih =>
    intro cat out hb
    cases hvid : v.voiceId with
    | none =>
      by_cases hl : v.languages.isEmpty
      · simp only [buildCatalog, hvid, hl, if_pos] at hb
        have hcontrib : langOptsList l (v :: rest) = langOptsList l rest := by
          simp [langOptsList, hvid]
        rw [hcontrib]
        exact ih cat out hb
      · simp [buildCatalog, hvid, hl] at hb
    | some vid =>
      simp only [buildCatalog, hvid] at hb
      have hr := ih _ out hb
      rw [catLookup_foldl_addVoice] at hr
      have hcontrib : langOptsList l (v :: rest) =
          ((v.languages.filter (fun x => x == l)).map
            (fun _ => voiceOption vid v.displayName)) ++ langOptsList l rest := by
        simp [langOptsList, hvid]
      rw [hcontrib]
      cases hcat : catLookup cat l with
      | some xs =>
        simp only [hcat] at hr
        simp [hr, List.append_assoc]
      | none =>
        simp only [hcat] at hr
        cases hf : v.languages.filter (fun x => x == l) with
        | nil =>
          simp only [hf, List.map_nil] at hr ⊢
          simpa using hr
        | cons f0 ftl =>
          simp only [hf, List.map_cons] at hr ⊢
          simpa using hr

theorem langOptsList_map_value (l : String) :
    ∀ voices : List VoiceRec,
      (langOptsList l voices).map VoiceOption.value = langVoiceIds l voices := by
  intro voices
  induction voices with
  | nil => simp [langOptsList, langVoiceIds]
  | cons v rest ih =>
    have h1 : langOptsList l (v :: rest) =
        (match v.voiceId with
         | some vid =>
           (v.languages.filter (fun x => x == l)).map
             (fun _ => voiceOption vid v.displayName)
         | none => []) ++ langOptsList l rest := by
      simp [langOptsList]
    have h2 : langVoiceIds l (v :: rest) =
        (match v.voiceId with
         | some vid => (v.languages.filter (fun x => x == l)).map (fun _ => vid)
         | none => []) ++ langVoiceIds l rest := by
      simp [langVoiceIds]
    rw [h1, h2, List.map_append, ih]
    cases hv : v.voiceId with
    | none => simp
    | some vid => simp [List.map_map, Function.comp, voiceOption]

/-- C4 corrected: for every voices response the fetcher accepts, every
language key maps to a non-empty list; and for any language whose voice ids
are not contributed twice by the response (counting repeated language
entries within one record and across records), every listed voice's value
occurs exactly once in that language's list. -/
theorem catalog_nonempty_and_unique (voices : List VoiceRec) (cat : Catalog)
    (hbuild : get_voices_and_languages (.ok voices) = .ok cat) :
    (∀ p ∈ cat, p.2 ≠ [])
    ∧ (∀ l, (langVoiceIds l voices).Nodup →
        ∀ p ∈ cat, p.1 = l → (p.2.map VoiceOption.value).Nodup) := by
  have hb : buildCatalog voices [] = .ok cat := hbuild
  refine ⟨buildCatalog_nonempty voices [] cat (by simp) hb, ?_⟩
  intro l hl p hp hpl
  have hnd := buildCatalog_keys_nodup voices [] cat (by simp) hb
  have hlook := catLookup_of_mem cat p hnd hp
  have hopts := buildCatalog_catLookup p.1 voices [] cat hb
  rw [hlook] at hopts
  have hcat0 : catLookup ([] : Catalog) p.1 = none := rfl
  rw [hcat0] at hopts
  have hp2 : p.2 = langOptsList p.1 voices := by
    cases ho : langOptsList p.1 voices with
    | nil =>
      rw [ho] at hopts
      simp at hopts
    | cons o os =>
      rw [ho] at hopts
      simpa using hopts
  rw [hp2, langOptsList_map_value, hpl]
  exact hl

/-- C4 witness: a duplicate-free two-language response yields unique,
non-empty voice lists; evaluated at the "en" entry of the built catalog. -/
theorem catalog_nonempty_and_unique_witness :
    (([(⟨"v1", "Voice One"⟩ : VoiceOption), ⟨"v2", "v2"⟩]).map VoiceOption.value).Nodup
    ∧ ([(⟨"v1", "Voice One"⟩ : VoiceOption), ⟨"v2", "v2"⟩] : List VoiceOption) ≠ [] := by
  have h := catalog_nonempty_and_unique c4GoodVoices c4GoodCatalog rfl
  exact ⟨h.2 "en" (by decide) ("en", [⟨"v1", "Voice One"⟩, ⟨"v2", "v2"⟩]) (by decide) rfl,
    h.1 ("en", [⟨"v1", "Voice One"⟩, ⟨"v2", "v2"⟩]) (by decide)⟩

/-- C4 counterexample: a response in which one voice record lists the same
language twice makes the fetcher build a catalog whose "en" list carries
the same value twice, so values are not always unique per language. -/
theorem catalog_duplicate_voice_counterexample :
    get_voices_and_languages (.ok c4DupVoices) = .ok c4DupCatalog
    ∧ ¬ catalogValuesUnique c4DupCatalog :=
  ⟨rfl, by intro h; exact absurd (h ("en", [⟨"v", "v"⟩, ⟨"v", "v"⟩]) (by decide)) (by decide)⟩

end InworldSpec
